import Mathlib

/-!
Verification development for the BuildSense logistics and supply engines.

The Python engines (`Project/engine/logistics_engine.py`,
`Project/engine/supply_engine.py`) are embedded shallowly:

* Python floats are modelled as exact rationals (`ℚ`); `round(x, n)` is
  modelled as round-half-to-even on rationals, `int(x)` as truncation
  toward zero.
* Python dicts (which preserve insertion order, and on update keep the
  original position of a key) are modelled as association lists with
  position-preserving insertion.
* `list.sort`, which is a stable sort, is modelled by a stable insertion
  sort: a stable sort's output is uniquely determined by its input and
  the key order, so any stable sort gives the same list.
* The haversine distance used by the supply engine is a real-valued
  trigonometric function; routing code that branches on comparisons of
  distances is therefore parametrised by the distance function
  (`DistFn`, over `ℚ`), while the haversine formula itself is embedded
  over `ℝ` for its own properties.
-/

namespace BuildSense

/-- Python `int(x)`: truncation toward zero. -/
def pyInt (q : ℚ) : ℤ := if 0 ≤ q then ⌊q⌋ else ⌈q⌉

/-- Python `round(x)`: round to the nearest integer, ties to even. -/
def roundHalfEven (q : ℚ) : ℤ :=
  let f := ⌊q⌋
  let r := q - f
  if r < 1/2 then f
  else if 1/2 < r then f + 1
  else if f % 2 = 0 then f else f + 1

/-- Python `round(x, n)` for `n` decimal digits. -/
def pyRound (q : ℚ) (n : ℕ) : ℚ := (roundHalfEven (q * 10 ^ n) : ℚ) / 10 ^ n

/-- Lookup in a Python dict modelled as an association list (first match). -/
def dictLookup {α : Type} (k : String) : List (String × α) → Option α
  | [] => none
  | (k', v) :: rest => if k' = k then some v else dictLookup k rest

/-- Python dict assignment `m[k] = v`: an existing key keeps its position,
a new key is appended at the end. -/
def dictInsert {α : Type} : List (String × α) → String → α → List (String × α)
  | [], k, v => [(k, v)]
  | (k', v') :: rest, k, v =>
    if k' = k then (k, v) :: rest else (k', v') :: dictInsert rest k v

/-- Python `del m[k]` (a no-op here when the key is absent). -/
def dictRemove {α : Type} (m : List (String × α)) (k : String) : List (String × α) :=
  m.filter (fun kv => kv.1 ≠ k)

/-- One step of stable insertion: place `x` before the first element it must
strictly precede, hence after every earlier element with an equal key. -/
def insertOrd {α : Type} (before : α → α → Bool) (x : α) : List α → List α
  | [] => [x]
  | y :: ys => if before x y then x :: y :: ys else y :: insertOrd before x ys

/-- Stable sort by a strict "must come before" predicate; models Python's
stable `list.sort` / `sorted`. -/
def stableSortBy {α : Type} (before : α → α → Bool) (l : List α) : List α :=
  l.foldl (fun acc x => insertOrd before x acc) []

/-! ## Logistics engine (`logistics_engine.py`) -/

/-- The fields of `models.material.Material` that the logistics engine reads. -/
structure Material where
  weight_per_unit : ℚ
  priority        : ℤ
deriving DecidableEq, Repr

/-- One entry of the `trucks` argument of `optimize_truck_loads`. -/
structure Truck where
  truck_id    : String
  capacity_kg : ℤ
deriving DecidableEq, Repr

/-- The fields of `models.delivery.TruckAssignment` populated by
`optimize_truck_loads`. -/
structure TruckAssignment where
  truck_id         : String
  capacity_kg      : ℤ
  materials_loaded : List String
  used_capacity_kg : ℤ
deriving DecidableEq, Repr

/-- One element of the knapsack item pool built by `optimize_truck_loads`. -/
structure Item where
  material : String
  weight   : ℚ
  priority : ℚ
  ratio    : ℚ
deriving DecidableEq, Repr

/-- Item-pool construction of `optimize_truck_loads` (steps 1-2): expand each
ordered quantity into one item per unit, with the rain-driven priority boost
`min(10, int(prio * 1.5))` for the moisture-sensitive allow-list. -/
def buildItems (materials : List (String × Material))
    (order_quantities : List (String × ℚ)) (rain_expected : Bool) : List Item :=
  order_quantities.flatMap fun nq =>
    match dictLookup nq.1 materials with
    | none => []
    | some mat =>
      let demand := roundHalfEven nq.2
      let weight := mat.weight_per_unit
      let prio : ℤ :=
        if rain_expected ∧ nq.1 ∈ ["Cement", "Sand", "Wood"] then
          min 10 (pyInt ((mat.priority : ℚ) * (3/2)))
        else mat.priority
      let r : ℚ := if 0 < weight then (prio : ℚ) / weight else 0
      List.replicate demand.toNat ⟨nq.1, weight, (prio : ℚ), r⟩

/-- The inner loop of `optimize_truck_loads` for one truck: greedily load
items in pool order while they fit, returning the loaded material names, the
final used weight, and the remaining pool. -/
def packTruck (capacity used : ℚ) : List Item → List String × ℚ × List Item
  | [] => ([], used, [])
  | i :: rest =>
    if used + i.weight ≤ capacity then
      let r := packTruck capacity (used + i.weight) rest
      (i.material :: r.1, r.2.1, r.2.2)
    else
      let r := packTruck capacity used rest
      (r.1, r.2.1, i :: r.2.2)

/-- The outer loop of `optimize_truck_loads`: pack each truck in input order
against the shrinking item pool. -/
def packTrucks : List Truck → List Item → List TruckAssignment
  | [], _ => []
  | t :: ts, items =>
    let r := packTruck (t.capacity_kg : ℚ) 0 items
    ⟨t.truck_id, t.capacity_kg, r.1, pyInt r.2.1⟩ :: packTrucks ts r.2.2

/-- `optimize_truck_loads` from `logistics_engine.py`: build the item pool,
stable-sort it by efficiency (priority per kg, descending), then pack the
trucks greedily. -/
def optimize_truck_loads (materials : List (String × Material))
    (order_quantities : List (String × ℚ)) (trucks : List Truck)
    (rain_expected : Bool) : List TruckAssignment :=
  let items := stableSortBy (fun a b => Item.ratio b < Item.ratio a)
    (buildItems materials order_quantities rain_expected)
  packTrucks trucks items

/-- `calculate_emissions` from `logistics_engine.py` (default emission factor
0.12, result rounded to 4 decimal digits). -/
def calculate_emissions (distance quantity truck_capacity : ℚ) : ℚ :=
  if truck_capacity = 0 ∨ distance = 0 then 0
  else pyRound (distance * (12/100) * (1 / max (1/100) (quantity / truck_capacity))) 4

/-- `_co2` from `supply_engine.py`: same formula, rounded to 2 decimal digits. -/
def co2 (distance_km load_kg capacity_kg : ℚ) : ℚ :=
  if capacity_kg = 0 ∨ distance_km = 0 then 0
  else pyRound (distance_km * (12/100) * (1 / max (1/100) (load_kg / capacity_kg))) 2

/-- The exact (unrounded) emissions formula as the specification words it:
`distance × 0.12 × (1 / max(0.01, quantity / truck_capacity))`. -/
def emissionsSpecFormula (distance quantity truck_capacity : ℚ) : ℚ :=
  distance * (12/100) * (1 / max (1/100) (quantity / truck_capacity))

/-! ## Haversine distance (`haversine` in `supply_engine.py`, `_haversine` in
`logistics_engine.py`; both files contain the identical formula) -/

/-- Python `math.radians`. -/
noncomputable def radians (x : ℝ) : ℝ := x * (Real.pi / 180)

/-- The haversine great-circle distance (km) with Earth radius 6371 km. -/
noncomputable def haversine (lat1 lon1 lat2 lon2 : ℝ) : ℝ :=
  let R : ℝ := 6371
  let dlat := radians (lat2 - lat1)
  let dlon := radians (lon2 - lon1)
  let a := Real.sin (dlat / 2) ^ 2 +
    Real.cos (radians lat1) * Real.cos (radians lat2) * Real.sin (dlon / 2) ^ 2
  R * 2 * Real.arcsin (Real.sqrt a)

/-! ## Clarke-Wright savings solver (`_clarke_wright` in `supply_engine.py`)

The solver is parametrised by the distance function (`haversine` in the
source); distances only feed the savings ordering and the recorded route
kilometres, so every theorem below quantifies over the distance function. -/

/-- A distance function on coordinate pairs, as used by the routing code. -/
abbrev DistFn := ℚ → ℚ → ℚ → ℚ → ℚ

/-- A distance function for concrete witnesses. -/
def zeroDist : DistFn := fun _ _ _ _ => 0

/-- One entry of the `stops` argument of `_clarke_wright`. -/
structure CWStop where
  id        : String
  lat       : ℚ
  lon       : ℚ
  demand_kg : ℚ
deriving DecidableEq, Repr

/-- The internal `_Route` dataclass of `supply_engine.py`. -/
structure CWRoute where
  stops   : List String
  load_kg : ℚ
  km      : ℚ
deriving DecidableEq, Repr

/-- Placeholder for a lookup that cannot miss in the source (the Python code
would raise `KeyError`; the algorithm never reaches that state). -/
def defaultStop : CWStop := ⟨"", 0, 0, 0⟩

/-- Placeholder route for an impossible lookup miss. -/
def defaultRoute : CWRoute := ⟨[], 0, 0⟩

/-- The mutable state of the merge loop: the `routes` dict (keyed by first
stop) and the `stop_to_route` membership map. -/
structure CWState where
  routes        : List (String × CWRoute)
  stop_to_route : List (String × String)
deriving Repr

/-- Sum of leg distances between consecutive stops of a route. -/
def legsKm (dist : DistFn) (stopMap : List (String × CWStop)) : List String → ℚ
  | x :: y :: rest =>
    let a := (dictLookup x stopMap).getD defaultStop
    let b := (dictLookup y stopMap).getD defaultStop
    dist a.lat a.lon b.lat b.lon + legsKm dist stopMap (y :: rest)
  | _ => 0

/-- Recomputed round-trip distance of a merged route:
depot → first stop → … → last stop → depot. -/
def mergedKm (dist : DistFn) (stopMap : List (String × CWStop))
    (depot_lat depot_lon : ℚ) (ss : List String) : ℚ :=
  match ss, ss.getLast? with
  | s0 :: _, some sl =>
    let first := (dictLookup s0 stopMap).getD defaultStop
    let lastS := (dictLookup sl stopMap).getD defaultStop
    dist depot_lat depot_lon first.lat first.lon + legsKm dist stopMap ss +
      dist lastS.lat lastS.lon depot_lat depot_lon
  | _, _ => 0

/-- One iteration of the greedy-merge loop of `_clarke_wright` for the
savings pair `(si, sj)`.  Mirrors the source: endpoint checks, in-place
orientation flips (which persist even when the capacity check then rejects
the merge), capacity check, merge and bookkeeping. -/
def cwStep (dist : DistFn) (stopMap : List (String × CWStop))
    (depot_lat depot_lon capacity_kg : ℚ) (st : CWState) (si sj : String) : CWState :=
  match dictLookup si st.stop_to_route, dictLookup sj st.stop_to_route with
  | some rki, some rkj =>
    if rki = rkj then st
    else
      let ri := (dictLookup rki st.routes).getD defaultRoute
      let rj := (dictLookup rkj st.routes).getD defaultRoute
      if ri.stops.getLast? ≠ some si ∧ ri.stops.head? ≠ some si then st
      else if rj.stops.head? ≠ some sj ∧ rj.stops.getLast? ≠ some sj then st
      else
        let ri' := if ri.stops.head? = some si then { ri with stops := ri.stops.reverse } else ri
        let rj' := if rj.stops.getLast? = some sj then { rj with stops := rj.stops.reverse } else rj
        let flipped := dictInsert (dictInsert st.routes rki ri') rkj rj'
        if capacity_kg < ri'.load_kg + rj'.load_kg then { st with routes := flipped }
        else
          let mergedStops := ri'.stops ++ rj'.stops
          let merged : CWRoute :=
            ⟨mergedStops, ri'.load_kg + rj'.load_kg,
              mergedKm dist stopMap depot_lat depot_lon mergedStops⟩
          let newKey := mergedStops.headD ""
          let routes' := dictInsert (dictRemove (dictRemove flipped rki) rkj) newKey merged
          let s2r' := mergedStops.foldl (fun m sid => dictInsert m sid newKey) st.stop_to_route
          ⟨routes', s2r'⟩
  | _, _ => st

/-- The savings-processing loop: pairs in descending-saving order, stopping
at the first non-positive saving. -/
def cwLoop (dist : DistFn) (stopMap : List (String × CWStop))
    (depot_lat depot_lon capacity_kg : ℚ) :
    List (ℚ × String × String) → CWState → CWState
  | [], st => st
  | (sav, si, sj) :: rest, st =>
    if sav ≤ 0 then st
    else cwLoop dist stopMap depot_lat depot_lon capacity_kg rest
      (cwStep dist stopMap depot_lat depot_lon capacity_kg st si sj)

/-- All unordered pairs of a list, in the order of the source's double loop
(`i < j` over indices). -/
def allPairs {α : Type} : List α → List (α × α)
  | [] => []
  | x :: xs => xs.map (fun y => (x, y)) ++ allPairs xs

/-- `_clarke_wright` from `supply_engine.py`: seed one route per stop,
compute and sort pairwise savings, then greedily merge. -/
def clarke_wright (dist : DistFn) (depot_lat depot_lon : ℚ)
    (stops : List CWStop) (capacity_kg : ℚ) : List CWRoute :=
  if stops.isEmpty then []
  else
    let stopMap := stops.foldl (fun m s => dictInsert m s.id s) []
    let routes0 := stops.foldl (fun m s =>
      dictInsert m s.id ⟨[s.id], s.demand_kg, 2 * dist depot_lat depot_lon s.lat s.lon⟩) []
    let ids := stops.map CWStop.id
    let savings := (allPairs ids).map (fun p =>
      let a := (dictLookup p.1 stopMap).getD defaultStop
      let b := (dictLookup p.2 stopMap).getD defaultStop
      (dist depot_lat depot_lon a.lat a.lon + dist depot_lat depot_lon b.lat b.lon -
        dist a.lat a.lon b.lat b.lon, p.1, p.2))
    let sorted := stableSortBy (fun x y => y.1 < x.1) savings
    let s2r0 := stops.foldl (fun m s => dictInsert m s.id s.id) []
    let final := cwLoop dist stopMap depot_lat depot_lon capacity_kg sorted ⟨routes0, s2r0⟩
    final.routes.map Prod.snd

/-! ## Supply sourcing and plan assembly (`plan_supply` in `supply_engine.py`) -/

/-- One store record of the supply network. -/
structure Store where
  id        : String
  name      : String
  lat       : ℚ
  lon       : ℚ
  inventory : List (String × ℚ)
deriving DecidableEq, Repr

/-- Python `s["inventory"].get(mat, 0)`. -/
def invQty (s : Store) (mat : String) : ℚ := (dictLookup mat s.inventory).getD 0

/-- One entry of the `requirements` argument of `plan_supply`. -/
structure Requirement where
  material    : String
  qty         : ℚ
  unit_weight : ℚ
deriving DecidableEq, Repr

/-- One per-store allocation record appended to `picks`. -/
structure Pick where
  store_id        : String
  store_name      : String
  lat             : ℚ
  lon             : ℚ
  material        : String
  qty_units       : ℚ
  weight_kg       : ℚ
  dist_to_dest_km : ℚ
deriving DecidableEq, Repr

/-- One entry of the `shortfalls` output list. -/
structure Shortfall where
  material     : String
  needed_kg    : ℚ
  available_kg : ℚ
  shortfall_kg : ℚ
deriving DecidableEq, Repr

/-- The greedy draw over sorted candidate stores for one requirement.
A candidate carries (distance, store, available units, available kg). -/
def drawLoop (req : Requirement) : List (ℚ × Store × ℚ × ℚ) → ℚ → List Pick × ℚ
  | [], remaining => ([], remaining)
  | (d, s, _, availKg) :: rest, remaining =>
    if remaining ≤ 0 then ([], remaining)
    else
      let takeKg := min availKg remaining
      let r := drawLoop req rest (remaining - takeKg)
      (⟨s.id, s.name, s.lat, s.lon, req.material, pyRound (takeKg / req.unit_weight) 2,
        pyRound takeKg 2, pyRound d 1⟩ :: r.1, r.2)

/-- Step 1 of `plan_supply` for a single requirement: rank the stores that
carry the material by distance to the destination, draw greedily, and record
a shortfall when more than the 1e-3 kg epsilon remains. -/
def sourceOne (dist : DistFn) (dest_lat dest_lon : ℚ) (stores : List Store)
    (req : Requirement) : List Pick × List Shortfall :=
  let needed := req.qty * req.unit_weight
  let candidates := stores.filterMap (fun s =>
    let availUnits := invQty s req.material
    if 0 < availUnits then
      some (dist dest_lat dest_lon s.lat s.lon, s, availUnits, availUnits * req.unit_weight)
    else none)
  let sorted := stableSortBy (fun a b => a.1 < b.1) candidates
  let pr := drawLoop req sorted needed
  (pr.1,
    if 1/1000 < pr.2 then
      [⟨req.material, pyRound needed 2, pyRound (needed - pr.2) 2, pyRound pr.2 2⟩]
    else [])

/-- Step 1 of `plan_supply` over the whole requirement list, appending picks
and shortfalls in requirement order. -/
def sourceRequirements (dist : DistFn) (dest_lat dest_lon : ℚ) (stores : List Store)
    (reqs : List Requirement) : List Pick × List Shortfall :=
  (((reqs.map (sourceOne dist dest_lat dest_lon stores)).map Prod.fst).flatten,
   ((reqs.map (sourceOne dist dest_lat dest_lon stores)).map Prod.snd).flatten)

/-- Per-store material line of the `by_store` aggregation. -/
structure MatQty where
  material  : String
  qty       : ℚ
  weight_kg : ℚ
deriving DecidableEq, Repr

/-- One aggregated store row of the `by_store` dict. -/
structure StoreAgg where
  id        : String
  name      : String
  lat       : ℚ
  lon       : ℚ
  materials : List MatQty
  total_kg  : ℚ
deriving DecidableEq, Repr

/-- Step 2 of `plan_supply`: aggregate picks by store (insertion order of
first pick; each pick appends a material line and adds its weight). -/
def aggregateByStore (picks : List Pick) : List (String × StoreAgg) :=
  picks.foldl (fun m p =>
    match dictLookup p.store_id m with
    | none =>
      dictInsert m p.store_id
        ⟨p.store_id, p.store_name, p.lat, p.lon,
          [⟨p.material, p.qty_units, p.weight_kg⟩], p.weight_kg⟩
    | some agg =>
      dictInsert m p.store_id
        { agg with
          materials := agg.materials ++ [⟨p.material, p.qty_units, p.weight_kg⟩],
          total_kg := agg.total_kg + p.weight_kg }) []

/-- One truck record of a depot (the `int(str(cap))` parse of the source is
the identity on the well-formed integer capacities modelled here). -/
structure DTruck where
  id  : String
  cap : ℤ
deriving DecidableEq, Repr

/-- One depot record of the supply network. -/
structure Depot where
  id     : String
  name   : String
  lat    : ℚ
  lon    : ℚ
  trucks : List DTruck
deriving DecidableEq, Repr

/-- Python `min(xs, key=f)`: first element with minimal key; `none` on an
empty list (where the source raises `ValueError`). -/
def argminFirst {α : Type} (f : α → ℚ) : List α → Option α
  | [] => none
  | x :: xs => some (xs.foldl (fun best y => if f y < f best then y else best) x)

/-- Step 3 of `plan_supply`: assign each aggregated store to its nearest
depot; `none` models the `ValueError` of `min` over an empty depot list. -/
def groupByDepot (dist : DistFn) (depots : List Depot) (storeAggs : List StoreAgg) :
    Option (List (String × (Depot × List StoreAgg))) :=
  storeAggs.foldlM (fun acc s =>
    (argminFirst (fun d => dist d.lat d.lon s.lat s.lon) depots).map (fun nd =>
      match dictLookup nd.id acc with
      | none => dictInsert acc nd.id (nd, [s])
      | some pair => dictInsert acc nd.id (pair.1, pair.2 ++ [s]))) []

/-- A named coordinate of the `route` field of an assignment. -/
structure RoutePoint where
  name : String
  lat  : ℚ
  lon  : ℚ
deriving DecidableEq, Repr

/-- One stop detail row of an assignment. -/
structure StopDetail where
  store_id   : String
  store_name : String
  lat        : ℚ
  lon        : ℚ
  materials  : List MatQty
  weight_kg  : ℚ
deriving DecidableEq, Repr

/-- One truck assignment of a depot plan (step 4 of `plan_supply`). -/
structure Assignment where
  truck_id    : String
  capacity_kg : ℤ
  load_kg     : ℚ
  util_pct    : ℚ
  route       : List RoutePoint
  stops       : List StopDetail
  distance_km : ℚ
  co2_kg      : ℚ
deriving DecidableEq, Repr

/-- The depot header of a depot plan. -/
structure DepotInfo where
  id   : String
  name : String
  lat  : ℚ
  lon  : ℚ
deriving DecidableEq, Repr

/-- One per-depot plan. -/
structure DepotPlan where
  depot       : DepotInfo
  assignments : List Assignment
deriving DecidableEq, Repr

/-- CW stop list for a depot: one stop per aggregated store, demand = the
store's total pickup weight. -/
def mkCwStops (stores : List StoreAgg) : List CWStop :=
  stores.map (fun s => ⟨s.id, s.lat, s.lon, s.total_kg⟩)

/-- Python `max(t["cap"] for t in trucks)` (0 on the empty list, which the
source never reaches thanks to the synthetic-truck fallback). -/
def maxCapOf : List DTruck → ℤ
  | [] => 0
  | t :: ts => ts.foldl (fun m t' => max m t'.cap) t.cap

/-- The assignment loop of step 4: assign CW routes to trucks round-robin,
skipping empty routes without consuming a truck index. -/
def assignLoop (dist : DistFn) (dest_lat dest_lon : ℚ) (dest_name : String)
    (depot : Depot) (storeLookup : List (String × StoreAgg)) (trucks : List DTruck)
    (truckIdx : ℕ) : List CWRoute → List Assignment
  | [] => []
  | r :: rest =>
    if r.stops.isEmpty then
      assignLoop dist dest_lat dest_lon dest_name depot storeLookup trucks truckIdx rest
    else
      let truck := trucks.getD (truckIdx % trucks.length) ⟨"", 0⟩
      let stop_details := r.stops.filterMap (fun sid =>
        (dictLookup sid storeLookup).map (fun s =>
          (⟨s.id, s.name, s.lat, s.lon, s.materials, s.total_kg⟩ : StopDetail)))
      let full_route := (⟨depot.name, depot.lat, depot.lon⟩ : RoutePoint) ::
        (stop_details.map (fun s => (⟨s.store_name, s.lat, s.lon⟩ : RoutePoint)) ++
          [⟨dest_name, dest_lat, dest_lon⟩])
      let km_to_dest :=
        match r.stops.getLast? with
        | none => 0
        | some sid =>
          match dictLookup sid storeLookup with
          | none => 0
          | some ls => dist ls.lat ls.lon dest_lat dest_lon
      let total_km := pyRound (r.km + km_to_dest) 2
      ⟨truck.id, truck.cap, pyRound r.load_kg 2,
        pyRound (r.load_kg / (truck.cap : ℚ) * 100) 1,
        full_route, stop_details, total_km, co2 total_km r.load_kg (truck.cap : ℚ)⟩ ::
      assignLoop dist dest_lat dest_lon dest_name depot storeLookup trucks (truckIdx + 1) rest

/-- Step 4 of `plan_supply` for one depot, given its (possibly synthetic)
truck list: run Clarke-Wright at the depot's maximum truck capacity and
assign routes to trucks. -/
def assembleDepot (dist : DistFn) (dest_lat dest_lon : ℚ) (dest_name : String)
    (depot : Depot) (storesForDepot : List StoreAgg) (trucks : List DTruck) : DepotPlan :=
  let maxCap := maxCapOf trucks
  let cwRoutes := clarke_wright dist depot.lat depot.lon (mkCwStops storesForDepot) (maxCap : ℚ)
  let storeLookup := storesForDepot.foldl (fun m s => dictInsert m s.id s) []
  ⟨⟨depot.id, depot.name, depot.lat, depot.lon⟩,
    assignLoop dist dest_lat dest_lon dest_name depot storeLookup trucks 0 cwRoutes⟩

/-- Step 4 of `plan_supply` for one depot, with the synthetic-truck fallback
for a depot whose record lists no trucks. -/
def buildDepotPlan (dist : DistFn) (dest_lat dest_lon : ℚ) (dest_name : String)
    (depot : Depot) (storesForDepot : List StoreAgg) : DepotPlan :=
  let trucks := if depot.trucks.isEmpty then [⟨depot.id ++ "-T1", 16000⟩] else depot.trucks
  assembleDepot dist dest_lat dest_lon dest_name depot storesForDepot trucks

/-- The aggregate summary of a plan. -/
structure Summary where
  total_trucks   : ℕ
  total_kg       : ℚ
  total_km       : ℚ
  total_co2_kg   : ℚ
  depots_used    : ℕ
  stores_sourced : ℕ
  shortfalls     : ℕ
deriving DecidableEq, Repr

/-- The structured plan returned by `plan_supply`. -/
structure Plan where
  destination  : RoutePoint
  requirements : List Requirement
  shortfalls   : List Shortfall
  picks        : List Pick
  depot_plans  : List DepotPlan
  summary      : Summary
deriving DecidableEq, Repr

/-- A placeholder plan used to state claims about `plan_supply`'s optional
result without an existential binder. -/
def emptyPlan : Plan := ⟨⟨"", 0, 0⟩, [], [], [], [], ⟨0, 0, 0, 0, 0, 0, 0⟩⟩

/-- `plan_supply` from `supply_engine.py`, parametrised by the distance
function and the already-loaded network (`depots`, `stores`).  Returns
`none` exactly where the source would raise `ValueError` (`min` over an
empty depot list with stores to assign). -/
def plan_supply (dist : DistFn) (dest_lat dest_lon : ℚ) (dest_name : String)
    (depots : List Depot) (stores : List Store)
    (requirements : List Requirement) : Option Plan :=
  let src := sourceRequirements dist dest_lat dest_lon stores requirements
  let byStore := aggregateByStore src.1
  match groupByDepot dist depots (byStore.map Prod.snd) with
  | none => none
  | some byDepot =>
    let depot_plans := byDepot.map (fun kv =>
      buildDepotPlan dist dest_lat dest_lon dest_name kv.2.1 kv.2.2)
    let allAssignments := (depot_plans.map DepotPlan.assignments).flatten
    some ⟨⟨dest_name, dest_lat, dest_lon⟩, requirements, src.2, src.1, depot_plans,
      ⟨allAssignments.length,
        pyRound ((allAssignments.map Assignment.load_kg).sum) 2,
        pyRound ((allAssignments.map Assignment.distance_km).sum) 2,
        pyRound ((allAssignments.map Assignment.co2_kg).sum) 2,
        depot_plans.length, byStore.length, src.2.length⟩⟩

/-! ## Helper lemmas about the container primitives -/

theorem dictLookup_mem {α : Type} {k : String} {v : α} :
    ∀ {m : List (String × α)}, dictLookup k m = some v → (k, v) ∈ m := by
  intro m
  induction m with
  | nil => intro h; simp [dictLookup] at h
  | cons kv rest ih =>
    obtain ⟨k', v'⟩ := kv
    intro h
    rw [dictLookup] at h
    by_cases hk : k' = k
    · rw [if_pos hk] at h
      obtain rfl := hk
      obtain rfl := Option.some.inj h
      exact List.mem_cons_self _ _
    · rw [if_neg hk] at h
      exact List.mem_cons_of_mem _ (ih h)

theorem mem_insertOrd {α : Type} {before : α → α → Bool} {x y : α} :
    ∀ {l : List α}, y ∈ insertOrd before x l → y = x ∨ y ∈ l := by
  intro l
  induction l with
  | nil => intro h; simp [insertOrd] at h; exact Or.inl h
  | cons z zs ih =>
    intro h
    rw [insertOrd] at h
    by_cases hb : before x z
    · rw [if_pos hb] at h
      rcases List.mem_cons.1 h with h | h
      · exact Or.inl h
      · exact Or.inr h
    · rw [if_neg hb] at h
      rcases List.mem_cons.1 h with h | h
      · exact Or.inr (by simp [h])
      · rcases ih h with h | h
        · exact Or.inl h
        · exact Or.inr (List.mem_cons_of_mem _ h)

theorem mem_stableSortBy {α : Type} {before : α → α → Bool} {x : α} {l : List α}
    (h : x ∈ stableSortBy before l) : x ∈ l := by
  have key : ∀ (l' acc : List α),
      x ∈ l'.foldl (fun acc x => insertOrd before x acc) acc → x ∈ acc ∨ x ∈ l' := by
    intro l'
    induction l' with
    | nil => intro acc h'; exact Or.inl h'
    | cons z zs ih =>
      intro acc h'
      rcases ih _ h' with h' | h'
      · rcases mem_insertOrd h' with h' | h'
        · exact Or.inr (by simp [h'])
        · exact Or.inl h'
      · exact Or.inr (List.mem_cons_of_mem _ h')
  rcases key l [] h with h | h
  · simp at h
  · exact h

/-- Every item of the knapsack pool comes from a looked-up material, carries
its per-unit weight, and carries the (possibly rain-boosted) priority. -/
theorem buildItems_mem {materials : List (String × Material)}
    {orders : List (String × ℚ)} {rain : Bool} {i : Item}
    (h : i ∈ buildItems materials orders rain) :
    ∃ mat, dictLookup i.material materials = some mat ∧
      i.weight = mat.weight_per_unit ∧
      i.priority = (((if rain ∧ i.material ∈ ["Cement", "Sand", "Wood"] then
        min 10 (pyInt ((mat.priority : ℚ) * (3/2))) else mat.priority) : ℤ) : ℚ) := by
  simp only [buildItems, List.mem_flatMap] at h
  obtain ⟨nq, hnq, hi⟩ := h
  cases hl : dictLookup nq.1 materials with
  | none => rw [hl] at hi; simp at hi
  | some mat =>
    rw [hl] at hi
    simp only at hi
    obtain rfl := List.eq_of_mem_replicate hi
    exact ⟨mat, hl, rfl, rfl⟩

/-! ## Claim C3 — knapsack capacity invariant -/

/-- The inner packing loop keeps `0 ≤ used ≤ capacity` and only ever leaves
behind items of the original pool. -/
theorem packTruck_spec {capacity : ℚ} :
    ∀ {items : List Item} {used : ℚ}, 0 ≤ used → used ≤ capacity →
      (∀ i ∈ items, 0 ≤ i.weight) →
      0 ≤ (packTruck capacity used items).2.1 ∧
      (packTruck capacity used items).2.1 ≤ capacity ∧
      ∀ i ∈ (packTruck capacity used items).2.2, i ∈ items := by
  intro items
  induction items with
  | nil => intro used h0 hc _; exact ⟨h0, hc, by simp [packTruck]⟩
  | cons i rest ih =>
    intro used h0 hc hw
    rw [packTruck]
    by_cases h : used + i.weight ≤ capacity
    · rw [if_pos h]
      have h0' : 0 ≤ used + i.weight :=
        add_nonneg h0 (hw i (List.mem_cons_self _ _))
      obtain ⟨a, b, c⟩ := ih h0' h (fun j hj => hw j (List.mem_cons_of_mem _ hj))
      exact ⟨a, b, fun j hj => List.mem_cons_of_mem _ (c j hj)⟩
    · rw [if_neg h]
      obtain ⟨a, b, c⟩ := ih h0 hc (fun j hj => hw j (List.mem_cons_of_mem _ hj))
      refine ⟨a, b, fun j hj => ?_⟩
      rcases List.mem_cons.1 hj with rfl | hj
      · exact List.mem_cons_self _ _
      · exact List.mem_cons_of_mem _ (c j hj)

/-- The outer packing loop never exceeds any truck's capacity. -/
theorem packTrucks_spec :
    ∀ {trucks : List Truck} {items : List Item},
      (∀ t ∈ trucks, 0 ≤ t.capacity_kg) → (∀ i ∈ items, 0 ≤ i.weight) →
      ∀ a ∈ packTrucks trucks items, a.used_capacity_kg ≤ a.capacity_kg := by
  intro trucks
  induction trucks with
  | nil => intro items _ _ a ha; simp [packTrucks] at ha
  | cons t ts ih =>
    intro items hc hw a ha
    have hcap : (0:ℚ) ≤ (t.capacity_kg : ℚ) := by
      exact_mod_cast hc t (List.mem_cons_self _ _)
    obtain ⟨hu0, hule, hrem⟩ := packTruck_spec le_rfl hcap hw
    rw [packTrucks] at ha
    rcases List.mem_cons.1 ha with rfl | ha
    · show pyInt _ ≤ t.capacity_kg
      rw [pyInt, if_pos hu0]
      calc ⌊(packTruck (t.capacity_kg : ℚ) 0 items).2.1⌋
          ≤ ⌊(t.capacity_kg : ℚ)⌋ := Int.floor_le_floor hule
        _ = t.capacity_kg := Int.floor_intCast _
    · exact ih (fun t' ht' => hc t' (List.mem_cons_of_mem _ ht'))
        (fun j hj => hw j (hrem j hj)) a ha

/-- C3: with non-negative per-unit weights and non-negative truck
capacities, every assignment returned by `optimize_truck_loads` satisfies
`used_capacity_kg ≤ capacity_kg`. -/
theorem C3_capacity_invariant (materials : List (String × Material))
    (orders : List (String × ℚ)) (trucks : List Truck) (rain : Bool)
    (hw : ∀ p ∈ materials, 0 ≤ p.2.weight_per_unit)
    (hc : ∀ t ∈ trucks, 0 ≤ t.capacity_kg) :
    ∀ a ∈ optimize_truck_loads materials orders trucks rain,
      a.used_capacity_kg ≤ a.capacity_kg := by
  apply packTrucks_spec hc
  intro i hi
  obtain ⟨mat, hl, hwi, _⟩ := buildItems_mem (mem_stableSortBy hi)
  rw [hwi]
  exact hw (i.material, mat) (dictLookup_mem hl)

/-- C3 witness: a concrete run (one item of weight 50 that does not fit a
40 kg truck) instantiating the capacity invariant. -/
theorem C3_witness :
    TruckAssignment.used_capacity_kg ⟨"T1", 40, [], 0⟩ ≤
      TruckAssignment.capacity_kg ⟨"T1", 40, [], 0⟩ :=
  C3_capacity_invariant [("Steel", ⟨50, 9⟩)] [("Steel", 1)] [⟨"T1", 40⟩] false
    (by norm_num) (by norm_num) ⟨"T1", 40, [], 0⟩
    (by norm_num [optimize_truck_loads, buildItems, stableSortBy, insertOrd,
      packTrucks, packTruck, dictLookup, pyInt, roundHalfEven])

/-! ## Claim C2 — scenario A of the spec -/

/-- C2 (amended): with one 1000 kg truck and 15 requested units of a
50 kg/unit material, all 15 units fit: the single assignment carries
750 kg and 15 loaded units, so no unit is left unallocated. -/
theorem C2_scenarioA :
    optimize_truck_loads [("Steel", ⟨50, 9⟩)] [("Steel", 15)] [⟨"T1", 1000⟩] false =
      [⟨"T1", 1000, List.replicate 15 "Steel", 750⟩] := by
  norm_num [optimize_truck_loads, buildItems, stableSortBy, insertOrd, packTrucks,
    packTruck, dictLookup, pyInt, roundHalfEven, List.replicate]

/-- C2 (counterexample): the claimed "5 units left unallocated" is
inconsistent with the code: the truck loads all 15 units (750 kg of a
1000 kg capacity), leaving 0, not 5, unallocated. -/
theorem C2_counterexample :
    (optimize_truck_loads [("Steel", ⟨50, 9⟩)] [("Steel", 15)] [⟨"T1", 1000⟩] false).map
      (fun a => (a.used_capacity_kg, a.materials_loaded.length)) = [(750, 15)] ∧
    (15 : ℤ) - 15 ≠ 5 := by
  constructor
  · norm_num [optimize_truck_loads, buildItems, stableSortBy, insertOrd, packTrucks,
      packTruck, dictLookup, pyInt, roundHalfEven, List.replicate]
  · norm_num

/-! ## Claim C6 — rain-driven priority boost -/

/-- C6 (amended): under rain, an item of an allow-listed material carries
priority `min(10, int(priority * 1.5))` — the product is truncated to an
integer before the cap, not kept fractional; other materials keep their
original priority. -/
theorem C6_rain_boost (materials : List (String × Material))
    (orders : List (String × ℚ)) (i : Item) (mat : Material)
    (hi : i ∈ buildItems materials orders true)
    (hm : dictLookup i.material materials = some mat) :
    i.priority = if i.material ∈ ["Cement", "Sand", "Wood"]
      then ((min 10 (pyInt ((mat.priority : ℚ) * (3/2))) : ℤ) : ℚ)
      else ((mat.priority : ℤ) : ℚ) := by
  obtain ⟨mat', hl, _, hp⟩ := buildItems_mem hi
  rw [hm] at hl
  obtain rfl := Option.some.inj hl
  rw [hp]
  by_cases h : i.material ∈ ["Cement", "Sand", "Wood"]
  · simp [h]
  · simp [h]

/-- C6 witness: priority 4 under rain becomes `min(10, int(6.0)) = 6` for
Cement. -/
theorem C6_witness :
    Item.priority ⟨"Cement", 50, 6, 6/50⟩ =
      if ("Cement" : String) ∈ ["Cement", "Sand", "Wood"]
      then ((min 10 (pyInt (((4 : ℤ) : ℚ) * (3/2))) : ℤ) : ℚ)
      else (((4 : ℤ) : ℚ)) :=
  C6_rain_boost [("Cement", ⟨50, 4⟩)] [("Cement", 1)] ⟨"Cement", 50, 6, 6/50⟩ ⟨50, 4⟩
    (by norm_num [buildItems, dictLookup, pyInt, roundHalfEven])
    (by norm_num [dictLookup])

/-- C6 (counterexample): for priority 3 under rain the code computes
`min(10, int(4.5)) = 4`, not the claimed `min(10, 4.5) = 4.5`. -/
theorem C6_counterexample :
    buildItems [("Cement", ⟨50, 3⟩)] [("Cement", 1)] true = [⟨"Cement", 50, 4, 4/50⟩] ∧
    (4 : ℚ) ≠ min 10 ((3 : ℚ) * (3/2)) := by
  constructor
  · norm_num [buildItems, dictLookup, pyInt, roundHalfEven]
  · rw [min_def]
    norm_num

/-! ## Claim C9 — unknown materials are skipped silently -/

/-- Unconditionally, the packing loop leaves behind only items of the
original pool. -/
theorem packTruck_subset {capacity : ℚ} :
    ∀ {items : List Item} {used : ℚ},
      ∀ i ∈ (packTruck capacity used items).2.2, i ∈ items := by
  intro items
  induction items with
  | nil => intro used i hi; simp [packTruck] at hi
  | cons j rest ih =>
    intro used i hi
    rw [packTruck] at hi
    by_cases h : used + j.weight ≤ capacity
    · rw [if_pos h] at hi
      exact List.mem_cons_of_mem _ (ih _ hi)
    · rw [if_neg h] at hi
      rcases List.mem_cons.1 hi with rfl | hi
      · exact List.mem_cons_self _ _
      · exact List.mem_cons_of_mem _ (ih _ hi)

/-- Every material name loaded on some truck names an item of the pool. -/
theorem packTrucks_loaded :
    ∀ {trucks : List Truck} {items : List Item},
      ∀ a ∈ packTrucks trucks items, ∀ m ∈ a.materials_loaded,
        ∃ i ∈ items, i.material = m := by
  have inner : ∀ {capacity : ℚ} {items : List Item} {used : ℚ},
      ∀ m ∈ (packTruck capacity used items).1, ∃ i ∈ items, i.material = m := by
    intro capacity items
    induction items with
    | nil => intro used m hm; simp [packTruck] at hm
    | cons j rest ih =>
      intro used m hm
      rw [packTruck] at hm
      by_cases h : used + j.weight ≤ capacity
      · rw [if_pos h] at hm
        rcases List.mem_cons.1 hm with rfl | hm
        · exact ⟨j, List.mem_cons_self _ _, rfl⟩
        · obtain ⟨i, hi, him⟩ := ih _ hm
          exact ⟨i, List.mem_cons_of_mem _ hi, him⟩
      · rw [if_neg h] at hm
        obtain ⟨i, hi, him⟩ := ih _ hm
        exact ⟨i, List.mem_cons_of_mem _ hi, him⟩
  intro trucks
  induction trucks with
  | nil => intro items a ha; simp [packTrucks] at ha
  | cons t ts ih =>
    intro items a ha m hm
    rw [packTrucks] at ha
    rcases List.mem_cons.1 ha with rfl | ha
    · exact inner m hm
    · obtain ⟨i, hi, him⟩ := ih a ha m hm
      exact ⟨i, packTruck_subset i hi, him⟩

/-- C9: an order entry whose material is not in the materials mapping is
skipped silently: the result is the same as without that entry, and the
unknown name is never loaded on any truck. -/
theorem C9_skip_unknown (materials : List (String × Material))
    (pre post : List (String × ℚ)) (name : String) (qty : ℚ)
    (trucks : List Truck) (rain : Bool)
    (h : dictLookup name materials = none) :
    optimize_truck_loads materials (pre ++ (name, qty) :: post) trucks rain =
      optimize_truck_loads materials (pre ++ post) trucks rain ∧
    ∀ a ∈ optimize_truck_loads materials (pre ++ (name, qty) :: post) trucks rain,
      name ∉ a.materials_loaded := by
  constructor
  · have hb : buildItems materials (pre ++ (name, qty) :: post) rain
        = buildItems materials (pre ++ post) rain := by
      simp only [buildItems, List.flatMap_append, List.flatMap_cons, h]
      simp
    rw [optimize_truck_loads, optimize_truck_loads, hb]
  · intro a ha hmem
    obtain ⟨i, hi, rfl⟩ := packTrucks_loaded a ha _ hmem
    obtain ⟨mat, hl, _, _⟩ := buildItems_mem (mem_stableSortBy hi)
    rw [h] at hl
    exact Option.noConfusion hl

/-- C9 witness: an order for an unknown material alongside a known one. -/
theorem C9_witness :
    (optimize_truck_loads [("Steel", ⟨50, 9⟩)] [("Steel", 1), ("Unobtainium", 3)]
        [⟨"T1", 100⟩] false =
      optimize_truck_loads [("Steel", ⟨50, 9⟩)] [("Steel", 1)] [⟨"T1", 100⟩] false) ∧
    "Unobtainium" ∉ TruckAssignment.materials_loaded ⟨"T1", 100, ["Steel"], 50⟩ :=
  ⟨(C9_skip_unknown [("Steel", ⟨50, 9⟩)] [("Steel", 1)] [] "Unobtainium" 3
      [⟨"T1", 100⟩] false (by simp [dictLookup])).1,
   (C9_skip_unknown [("Steel", ⟨50, 9⟩)] [("Steel", 1)] [] "Unobtainium" 3
      [⟨"T1", 100⟩] false (by simp [dictLookup])).2
    ⟨"T1", 100, ["Steel"], 50⟩
    (by norm_num [optimize_truck_loads, buildItems, stableSortBy, insertOrd,
      packTrucks, packTruck, dictLookup, pyInt, roundHalfEven])⟩

/-! ## Claim C5 — emissions contract -/

/-- C5 (amended): `calculate_emissions` returns 0 when distance = 0 or
capacity = 0, and otherwise the spec's product `distance × 0.12 ×
(1 / max(0.01, quantity/capacity))` rounded half-to-even to 4 decimal
digits; scenario D holds at distance 10 (utilisation 1.0 gives
`10 × 0.12 × 1.0`, utilisation 0.1 gives `10 × 0.12 × 10`). -/
theorem C5_emissions_rounded :
    (∀ d q c : ℚ, calculate_emissions d q c =
      if d = 0 ∨ c = 0 then 0 else pyRound (emissionsSpecFormula d q c) 4) ∧
    calculate_emissions 10 500 500 = 10 * (12/100) * 1 ∧
    calculate_emissions 10 50 500 = 10 * (12/100) * 10 := by
  refine ⟨fun d q c => ?_, ?_, ?_⟩
  · by_cases h : d = 0 ∨ c = 0
    · rcases h with h | h <;> simp [calculate_emissions, h]
    · push_neg at h
      rw [calculate_emissions, if_neg (by tauto), if_neg (by tauto)]
      rfl
  · norm_num [calculate_emissions, pyRound, roundHalfEven, max_def]
  · norm_num [calculate_emissions, pyRound, roundHalfEven, max_def]

/-- C5 (counterexample): at distance 1, load 7, capacity 100 the code
returns the 4-digit rounding 1.7143, not the exact product 12/7 claimed. -/
theorem C5_counterexample :
    calculate_emissions 1 7 100 = 17143/10000 ∧
    emissionsSpecFormula 1 7 100 = 12/7 ∧
    (17143/10000 : ℚ) ≠ 12/7 := by
  refine ⟨?_, ?_, by norm_num⟩
  · norm_num [calculate_emissions, pyRound, roundHalfEven, max_def]
  · norm_num [emissionsSpecFormula, max_def]

/-! ## Claim C8 — haversine distance properties -/

/-- C8 (amended): the haversine distance is non-negative and symmetric, and
vanishes on equal coordinate pairs.  The converse of the last part (zero
only on equal pairs) is false; see the counterexample. -/
theorem C8_haversine_props (lat1 lon1 lat2 lon2 : ℝ) :
    0 ≤ haversine lat1 lon1 lat2 lon2 ∧
    haversine lat1 lon1 lat2 lon2 = haversine lat2 lon2 lat1 lon1 ∧
    haversine lat1 lon1 lat1 lon1 = 0 := by
  have hs : ∀ x y : ℝ, Real.sin (radians (x - y) / 2) ^ 2
      = Real.sin (radians (y - x) / 2) ^ 2 := by
    intro x y
    have h : radians (x - y) / 2 = -(radians (y - x) / 2) := by unfold radians; ring
    rw [h, Real.sin_neg, neg_sq]
  refine ⟨?_, ?_, ?_⟩
  · simp only [haversine]
    exact mul_nonneg (by norm_num) (Real.arcsin_nonneg.2 (Real.sqrt_nonneg _))
  · simp only [haversine]
    rw [hs lat2 lat1, hs lon2 lon1,
      mul_comm (Real.cos (radians lat1)) (Real.cos (radians lat2))]
  · simp [haversine, radians, sub_self]

/-- C8 (counterexample): the claim's "zero iff the points are equal" fails:
at latitude 90 both cosine factors vanish, so the distance between the
distinct coordinate pairs (90, 0) and (90, 10) is exactly 0. -/
theorem C8_counterexample :
    haversine 90 0 90 10 = 0 ∧ ((90, 0) : ℝ × ℝ) ≠ (90, 10) := by
  constructor
  · have h90 : radians 90 = Real.pi / 2 := by unfold radians; ring
    simp only [haversine]
    norm_num
    rw [h90]
    simp [radians, Real.cos_pi_div_two]
  · intro h
    have := congrArg Prod.snd h
    norm_num at this

/-! ## Claim C1 — Clarke-Wright capacity invariant -/

theorem mem_dictInsert {α : Type} {kv : String × α} {k : String} {v : α} :
    ∀ {m : List (String × α)}, kv ∈ dictInsert m k v → kv.2 = v ∨ kv ∈ m := by
  intro m
  induction m with
  | nil =>
    intro h
    rw [dictInsert] at h
    obtain rfl := List.mem_singleton.1 h
    exact Or.inl rfl
  | cons x rest ih =>
    obtain ⟨k', v'⟩ := x
    intro h
    rw [dictInsert] at h
    by_cases hk : k' = k
    · rw [if_pos hk] at h
      rcases List.mem_cons.1 h with rfl | h
      · exact Or.inl rfl
      · exact Or.inr (List.mem_cons_of_mem _ h)
    · rw [if_neg hk] at h
      rcases List.mem_cons.1 h with rfl | h
      · exact Or.inr (List.mem_cons_self _ _)
      · rcases ih h with h | h
        · exact Or.inl h
        · exact Or.inr (List.mem_cons_of_mem _ h)

theorem mem_dictRemove {α : Type} {kv : String × α} {m : List (String × α)} {k : String}
    (h : kv ∈ dictRemove m k) : kv ∈ m :=
  List.mem_of_mem_filter h

/-- The seed routes all carry a single stop's demand. -/
theorem seedRoutes_bounded (dist : DistFn) (dlat dlon : ℚ) {stops : List CWStop} {cap : ℚ}
    (hd : ∀ s ∈ stops, s.demand_kg ≤ cap) :
    ∀ kv ∈ stops.foldl (fun m s =>
        dictInsert m s.id ⟨[s.id], s.demand_kg, 2 * dist dlat dlon s.lat s.lon⟩)
        ([] : List (String × CWRoute)),
      kv.2.load_kg ≤ cap := by
  have key : ∀ (l : List CWStop) (acc : List (String × CWRoute)),
      (∀ kv ∈ acc, kv.2.load_kg ≤ cap) → (∀ s ∈ l, s.demand_kg ≤ cap) →
      ∀ kv ∈ l.foldl (fun m s =>
          dictInsert m s.id ⟨[s.id], s.demand_kg, 2 * dist dlat dlon s.lat s.lon⟩) acc,
        kv.2.load_kg ≤ cap := by
    intro l
    induction l with
    | nil => intro acc hacc _ kv hkv; exact hacc kv hkv
    | cons s rest ih =>
      intro acc hacc hl kv hkv
      refine ih _ ?_ (fun s' hs' => hl s' (List.mem_cons_of_mem _ hs')) kv hkv
      intro kv' hkv'
      rcases mem_dictInsert hkv' with h | h
      · rw [h]; exact hl s (List.mem_cons_self _ _)
      · exact hacc kv' h
  exact key stops [] (by simp) hd

/-- A route fetched from a bounded route dict (or the placeholder for an
impossible miss) is bounded. -/
theorem lookup_route_bounded {cap : ℚ} {routes : List (String × CWRoute)} {k : String}
    (hc : 0 ≤ cap) (hb : ∀ kv ∈ routes, kv.2.load_kg ≤ cap) :
    ((dictLookup k routes).getD defaultRoute).load_kg ≤ cap := by
  cases h : dictLookup k routes with
  | none => simpa [defaultRoute] using hc
  | some r => exact hb (k, r) (dictLookup_mem h)

/-- One merge step keeps every route's load at most the capacity: the
orientation flips do not change loads, and a merge is guarded by the
capacity check. -/
theorem cwStep_bounded {dist : DistFn} {stopMap : List (String × CWStop)}
    {dlat dlon cap : ℚ} {st : CWState} {si sj : String}
    (hc : 0 ≤ cap) (hb : ∀ kv ∈ st.routes, kv.2.load_kg ≤ cap) :
    ∀ kv ∈ (cwStep dist stopMap dlat dlon cap st si sj).routes, kv.2.load_kg ≤ cap := by
  intro kv hkv
  unfold cwStep at hkv
  cases h1 : dictLookup si st.stop_to_route with
  | none => simp only [h1] at hkv; exact hb kv hkv
  | some rki =>
    cases h2 : dictLookup sj st.stop_to_route with
    | none => simp only [h1, h2] at hkv; exact hb kv hkv
    | some rkj =>
      simp only [h1, h2] at hkv
      by_cases he : rki = rkj
      · simp only [if_pos he] at hkv; exact hb kv hkv
      · simp only [if_neg he] at hkv
        set ri := (dictLookup rki st.routes).getD defaultRoute with hri
        set rj := (dictLookup rkj st.routes).getD defaultRoute with hrj
        have hril : ri.load_kg ≤ cap := lookup_route_bounded hc hb
        have hrjl : rj.load_kg ≤ cap := lookup_route_bounded hc hb
        by_cases hei : ri.stops.getLast? ≠ some si ∧ ri.stops.head? ≠ some si
        · simp only [if_pos hei] at hkv; exact hb kv hkv
        · simp only [if_neg hei] at hkv
          by_cases hej : rj.stops.head? ≠ some sj ∧ rj.stops.getLast? ≠ some sj
          · simp only [if_pos hej] at hkv; exact hb kv hkv
          · simp only [if_neg hej] at hkv
            set ri' := if ri.stops.head? = some si
              then { ri with stops := ri.stops.reverse } else ri with hri'
            set rj' := if rj.stops.getLast? = some sj
              then { rj with stops := rj.stops.reverse } else rj with hrj'
            have hril' : ri'.load_kg ≤ cap := by
              rw [hri']; split <;> simpa using hril
            have hrjl' : rj'.load_kg ≤ cap := by
              rw [hrj']; split <;> simpa using hrjl
            have hflip : ∀ kv' ∈ dictInsert (dictInsert st.routes rki ri') rkj rj',
                kv'.2.load_kg ≤ cap := by
              intro kv' hkv'
              rcases mem_dictInsert hkv' with h | h
              · rw [h]; exact hrjl'
              · rcases mem_dictInsert h with h | h
                · rw [h]; exact hril'
                · exact hb kv' h
            by_cases hcap : cap < ri'.load_kg + rj'.load_kg
            · simp only [if_pos hcap] at hkv
              exact hflip kv hkv
            · simp only [if_neg hcap] at hkv
              rcases mem_dictInsert hkv with h | h
              · rw [h]
                simpa using le_of_not_lt hcap
              · exact hflip kv (mem_dictRemove (mem_dictRemove h))

/-- The whole merge loop preserves boundedness of every route's load. -/
theorem cwLoop_bounded {dist : DistFn} {stopMap : List (String × CWStop)}
    {dlat dlon cap : ℚ} (hc : 0 ≤ cap) :
    ∀ (savings : List (ℚ × String × String)) (st : CWState),
      (∀ kv ∈ st.routes, kv.2.load_kg ≤ cap) →
      ∀ kv ∈ (cwLoop dist stopMap dlat dlon cap savings st).routes,
        kv.2.load_kg ≤ cap := by
  intro savings
  induction savings with
  | nil => intro st hb; simpa [cwLoop] using hb
  | cons x rest ih =>
    obtain ⟨sav, si, sj⟩ := x
    intro st hb
    rw [cwLoop]
    by_cases h : sav ≤ 0
    · rw [if_pos h]; exact hb
    · rw [if_neg h]; exact ih _ (cwStep_bounded hc hb)

/-- C1 (amended): provided every stop's demand is non-negative and at most
the capacity ceiling, every route returned by `_clarke_wright` has load at
most the ceiling.  The proviso is necessary: a seed route is never
capacity-checked, so a single oversized stop violates the claim as stated
(see the counterexample). -/
theorem C1_cw_capacity (dist : DistFn) (depot_lat depot_lon : ℚ)
    (stops : List CWStop) (capacity_kg : ℚ)
    (hd : ∀ s ∈ stops, 0 ≤ s.demand_kg ∧ s.demand_kg ≤ capacity_kg) :
    ∀ r ∈ clarke_wright dist depot_lat depot_lon stops capacity_kg,
      r.load_kg ≤ capacity_kg := by
  intro r hr
  rw [clarke_wright] at hr
  by_cases hs : stops.isEmpty
  · rw [if_pos hs] at hr; simp at hr
  · rw [if_neg hs] at hr
    obtain ⟨s0, hs0⟩ : ∃ s, s ∈ stops := by
      cases stops with
      | nil => simp at hs
      | cons a l => exact ⟨a, List.mem_cons_self _ _⟩
    have hc : 0 ≤ capacity_kg := le_trans (hd s0 hs0).1 (hd s0 hs0).2
    simp only [List.mem_map] at hr
    obtain ⟨kv, hkv, rfl⟩ := hr
    exact cwLoop_bounded hc _ _
      (seedRoutes_bounded dist depot_lat depot_lon (fun s hsm => (hd s hsm).2)) kv hkv

/-- C1 witness: one stop of demand 10 against a ceiling of 16. -/
theorem C1_witness : CWRoute.load_kg ⟨["S1"], 10, 0⟩ ≤ 16 :=
  C1_cw_capacity zeroDist 0 0 [⟨"S1", 0, 0, 10⟩] 16 (by norm_num) ⟨["S1"], 10, 0⟩
    (by norm_num [clarke_wright, zeroDist, allPairs, stableSortBy, insertOrd,
      cwLoop, dictInsert, dictLookup])

/-- C1 (counterexample): a single stop whose demand 20000 exceeds the
ceiling 16000 yields a seed route of load 20000 — the solver returns it
unchecked, so not every returned route respects the ceiling. -/
theorem C1_counterexample :
    clarke_wright zeroDist 0 0 [⟨"S1", 0, 0, 20000⟩] 16000 = [⟨["S1"], 20000, 0⟩] ∧
    ¬ ((20000 : ℚ) ≤ 16000) := by
  constructor
  · norm_num [clarke_wright, zeroDist, allPairs, stableSortBy, insertOrd,
      cwLoop, dictInsert, dictLookup]
  · norm_num

/-! ## Claim C4 — per-material weight conservation in sourcing -/

/-- Rounding to the nearest integer moves a rational by at most 1/2. -/
theorem roundHalfEven_abs (q : ℚ) : |((roundHalfEven q : ℤ) : ℚ) - q| ≤ 1/2 := by
  have hfl : ((⌊q⌋ : ℤ) : ℚ) ≤ q := Int.floor_le q
  have hfu : q < ⌊q⌋ + 1 := Int.lt_floor_add_one q
  simp only [roundHalfEven]
  by_cases h1 : q - ⌊q⌋ < 1/2
  · rw [if_pos h1, abs_sub_comm, abs_of_nonneg (by linarith)]
    linarith
  · rw [if_neg h1]
    have h1' : 1/2 ≤ q - ⌊q⌋ := le_of_not_lt h1
    by_cases h2 : 1/2 < q - ⌊q⌋
    · rw [if_pos h2, abs_of_nonneg (by push_cast; linarith)]
      push_cast
      linarith
    · rw [if_neg h2]
      have h2' : q - ⌊q⌋ ≤ 1/2 := le_of_not_lt h2
      by_cases h3 : (⌊q⌋ : ℤ) % 2 = 0
      · rw [if_pos h3, abs_sub_comm, abs_of_nonneg (by linarith)]
        linarith
      · rw [if_neg h3, abs_of_nonneg (by push_cast; linarith)]
        push_cast
        linarith

/-- Python `round(x, n)` moves a rational by at most half a unit in the
last place. -/
theorem pyRound_abs (q : ℚ) (n : ℕ) : |pyRound q n - q| ≤ 1 / (2 * 10 ^ n) := by
  have hpos : (0:ℚ) < 10 ^ n := by positivity
  have h := roundHalfEven_abs (q * 10 ^ n)
  have heq : pyRound q n - q =
      (((roundHalfEven (q * 10 ^ n) : ℤ) : ℚ) - q * 10 ^ n) / 10 ^ n := by
    rw [pyRound]
    field_simp
    try ring
  rw [heq, abs_div, abs_of_pos hpos, div_le_div_iff₀ hpos (by positivity)]
  calc |((roundHalfEven (q * 10 ^ n) : ℤ) : ℚ) - q * 10 ^ n| * (2 * 10 ^ n)
      ≤ (1/2) * (2 * 10 ^ n) := by
        apply mul_le_mul_of_nonneg_right h
        positivity
    _ = 1 * 10 ^ n := by ring

/-- Rounding to two decimal digits moves a rational by at most 1/200. -/
theorem pyRound_abs_two (q : ℚ) : |pyRound q 2 - q| ≤ 1/200 := by
  have h := pyRound_abs q 2
  norm_num at h
  exact h

/-- The greedy draw keeps the remaining requirement non-negative and
conserves weight up to the per-pick 2-digit rounding of recorded weights. -/
theorem drawLoop_spec (req : Requirement) :
    ∀ (cands : List (ℚ × Store × ℚ × ℚ)) (remaining : ℚ), 0 ≤ remaining →
      0 ≤ (drawLoop req cands remaining).2 ∧
      |((drawLoop req cands remaining).1.map Pick.weight_kg).sum +
          (drawLoop req cands remaining).2 - remaining|
        ≤ ((drawLoop req cands remaining).1.length : ℚ) / 200 := by
  intro cands
  induction cands with
  | nil =>
    intro remaining h0
    refine ⟨by simpa [drawLoop] using h0, ?_⟩
    simp [drawLoop]
  | cons c rest ih =>
    obtain ⟨d, s, au, availKg⟩ := c
    intro remaining h0
    rw [drawLoop]
    by_cases hbr : remaining ≤ 0
    · rw [if_pos hbr]
      exact ⟨h0, by simp⟩
    · rw [if_neg hbr]
      have htake : min availKg remaining ≤ remaining := min_le_right _ _
      have h0' : 0 ≤ remaining - min availKg remaining := by linarith
      obtain ⟨ih0, ihb⟩ := ih (remaining - min availKg remaining) h0'
      refine ⟨by simpa using ih0, ?_⟩
      have hr := pyRound_abs_two (min availKg remaining)
      simp only [List.map_cons, List.sum_cons, List.length_cons]
      have hsplit :
          pyRound (min availKg remaining) 2 +
            ((drawLoop req rest (remaining - min availKg remaining)).1.map Pick.weight_kg).sum +
            (drawLoop req rest (remaining - min availKg remaining)).2 - remaining =
          (pyRound (min availKg remaining) 2 - min availKg remaining) +
            (((drawLoop req rest (remaining - min availKg remaining)).1.map Pick.weight_kg).sum +
              (drawLoop req rest (remaining - min availKg remaining)).2 -
              (remaining - min availKg remaining)) := by
        ring
      rw [hsplit]
      refine le_trans (abs_add _ _) ?_
      refine le_trans (add_le_add hr ihb) ?_
      push_cast
      linarith

/-- Every pick drawn for a requirement is tagged with its material. -/
theorem drawLoop_material (req : Requirement) :
    ∀ (cands : List (ℚ × Store × ℚ × ℚ)) (remaining : ℚ),
      ∀ p ∈ (drawLoop req cands remaining).1, p.material = req.material := by
  intro cands
  induction cands with
  | nil => intro remaining p hp; simp [drawLoop] at hp
  | cons c rest ih =>
    obtain ⟨d, s, au, availKg⟩ := c
    intro remaining p hp
    rw [drawLoop] at hp
    by_cases hbr : remaining ≤ 0
    · rw [if_pos hbr] at hp; simp at hp
    · rw [if_neg hbr] at hp
      rcases List.mem_cons.1 hp with rfl | hp
      · rfl
      · exact ih _ p hp

/-- Every pick of `sourceOne` is tagged with the requirement's material. -/
theorem sourceOne_picks_material (dist : DistFn) (dest_lat dest_lon : ℚ)
    (stores : List Store) (req : Requirement) :
    ∀ p ∈ (sourceOne dist dest_lat dest_lon stores req).1, p.material = req.material := by
  intro p hp
  rw [sourceOne] at hp
  exact drawLoop_material req _ _ p hp

/-- Every shortfall entry of `sourceOne` is tagged with the requirement's
material. -/
theorem sourceOne_short_material (dist : DistFn) (dest_lat dest_lon : ℚ)
    (stores : List Store) (req : Requirement) :
    ∀ e ∈ (sourceOne dist dest_lat dest_lon stores req).2, e.material = req.material := by
  intro e he
  rw [sourceOne] at he
  simp only at he
  split at he
  · obtain rfl := List.mem_singleton.1 he; rfl
  · simp at he

/-- Conservation for one requirement: recorded pick weights plus recorded
shortfall reconstruct the needed weight up to rounding. -/
theorem sourceOne_conservation (dist : DistFn) (dest_lat dest_lon : ℚ)
    (stores : List Store) (req : Requirement)
    (h0 : 0 ≤ req.qty * req.unit_weight) :
    |((sourceOne dist dest_lat dest_lon stores req).1.map Pick.weight_kg).sum +
        ((sourceOne dist dest_lat dest_lon stores req).2.map Shortfall.shortfall_kg).sum -
        req.qty * req.unit_weight|
      ≤ (((sourceOne dist dest_lat dest_lon stores req).1.length : ℚ) + 1) / 200 := by
  rw [sourceOne]
  simp only
  obtain ⟨hrem, hb⟩ := drawLoop_spec req
    (stableSortBy (fun a b => a.1 < b.1)
      (stores.filterMap (fun s =>
        let availUnits := invQty s req.material
        if 0 < availUnits then
          some (dist dest_lat dest_lon s.lat s.lon, s, availUnits,
            availUnits * req.unit_weight)
        else none)))
    (req.qty * req.unit_weight) h0
  set pr := drawLoop req
    (stableSortBy (fun a b => a.1 < b.1)
      (stores.filterMap (fun s =>
        let availUnits := invQty s req.material
        if 0 < availUnits then
          some (dist dest_lat dest_lon s.lat s.lon, s, availUnits,
            availUnits * req.unit_weight)
        else none)))
    (req.qty * req.unit_weight) with hpr
  by_cases hsf : 1/1000 < pr.2
  · rw [if_pos hsf]
    simp only [List.map_cons, List.map_nil, List.sum_cons, List.sum_nil, add_zero]
    have hr := pyRound_abs_two pr.2
    have hsplit : (pr.1.map Pick.weight_kg).sum + pyRound pr.2 2 -
        req.qty * req.unit_weight =
        ((pr.1.map Pick.weight_kg).sum + pr.2 - req.qty * req.unit_weight) +
          (pyRound pr.2 2 - pr.2) := by ring
    rw [hsplit]
    refine le_trans (abs_add _ _) ?_
    refine le_trans (add_le_add hb hr) ?_
    ring_nf
    linarith
  · rw [if_neg hsf]
    simp only [List.map_nil, List.sum_nil, add_zero]
    have hle : pr.2 ≤ 1/1000 := le_of_not_lt hsf
    have hsplit : (pr.1.map Pick.weight_kg).sum - req.qty * req.unit_weight =
        ((pr.1.map Pick.weight_kg).sum + pr.2 - req.qty * req.unit_weight) + (-pr.2) := by
      ring
    rw [hsplit]
    refine le_trans (abs_add _ _) ?_
    have habs : |(-pr.2)| ≤ 1/200 := by
      rw [abs_neg, abs_of_nonneg hrem]
      linarith
    refine le_trans (add_le_add hb habs) ?_
    ring_nf
    linarith

/-- C4: for a requirement whose material appears in no other requirement,
the recorded pick weights for that material plus its recorded shortfall
(0 when no entry exists) equal the needed weight `qty × unit_weight` within
the explicit epsilon `(number of picks + 1) / 200`: half a unit in the
second decimal digit for each recorded value, which also absorbs the
1e-3 kg unrecorded-shortfall epsilon. -/
theorem C4_conservation (dist : DistFn) (dest_lat dest_lon : ℚ) (stores : List Store)
    (pre post : List Requirement) (req : Requirement)
    (hq : 0 < req.qty) (hw : 0 < req.unit_weight)
    (huniq : ∀ r ∈ pre ++ post, r.material ≠ req.material) :
    |(((sourceRequirements dist dest_lat dest_lon stores (pre ++ req :: post)).1.filter
          (fun p => p.material = req.material)).map Pick.weight_kg).sum +
        (((sourceRequirements dist dest_lat dest_lon stores (pre ++ req :: post)).2.filter
          (fun e => e.material = req.material)).map Shortfall.shortfall_kg).sum -
        req.qty * req.unit_weight|
      ≤ (((((sourceRequirements dist dest_lat dest_lon stores (pre ++ req :: post)).1.filter
          (fun p => p.material = req.material)).length : ℚ)) + 1) / 200 := by
  have hfilterP : ∀ (l : List Requirement), (∀ r ∈ l, r.material ≠ req.material) →
      ((l.map (sourceOne dist dest_lat dest_lon stores)).map Prod.fst).flatten.filter
        (fun p => p.material = req.material) = [] := by
    intro l hl
    rw [List.filter_eq_nil_iff]
    intro p hp
    simp only [List.mem_flatten, List.mem_map] at hp
    obtain ⟨ps, ⟨pr, ⟨r, hr, rfl⟩, rfl⟩, hpmem⟩ := hp
    have := sourceOne_picks_material dist dest_lat dest_lon stores r p hpmem
    simp [this, hl r hr]
  have hfilterS : ∀ (l : List Requirement), (∀ r ∈ l, r.material ≠ req.material) →
      ((l.map (sourceOne dist dest_lat dest_lon stores)).map Prod.snd).flatten.filter
        (fun e => e.material = req.material) = [] := by
    intro l hl
    rw [List.filter_eq_nil_iff]
    intro e he
    simp only [List.mem_flatten, List.mem_map] at he
    obtain ⟨es, ⟨pr, ⟨r, hr, rfl⟩, rfl⟩, hemem⟩ := he
    have := sourceOne_short_material dist dest_lat dest_lon stores r e hemem
    simp [this, hl r hr]
  have hpre : ∀ r ∈ pre, r.material ≠ req.material :=
    fun r hr => huniq r (List.mem_append.2 (Or.inl hr))
  have hpost : ∀ r ∈ post, r.material ≠ req.material :=
    fun r hr => huniq r (List.mem_append.2 (Or.inr hr))
  have hp : (sourceRequirements dist dest_lat dest_lon stores (pre ++ req :: post)).1.filter
      (fun p => p.material = req.material) =
      (sourceOne dist dest_lat dest_lon stores req).1 := by
    rw [sourceRequirements]
    simp only [List.map_append, List.map_cons, List.flatten_append, List.flatten_cons,
      List.filter_append]
    rw [hfilterP pre hpre, hfilterP post hpost,
      List.filter_eq_self.2 (fun p hp' => by
        simp [sourceOne_picks_material dist dest_lat dest_lon stores req p hp'])]
    simp
  have hs : (sourceRequirements dist dest_lat dest_lon stores (pre ++ req :: post)).2.filter
      (fun e => e.material = req.material) =
      (sourceOne dist dest_lat dest_lon stores req).2 := by
    rw [sourceRequirements]
    simp only [List.map_append, List.map_cons, List.flatten_append, List.flatten_cons,
      List.filter_append]
    rw [hfilterS pre hpre, hfilterS post hpost,
      List.filter_eq_self.2 (fun e he' => by
        simp [sourceOne_short_material dist dest_lat dest_lon stores req e he'])]
    simp
  rw [hp, hs]
  exact sourceOne_conservation dist dest_lat dest_lon stores req
    (le_of_lt (mul_pos hq hw))

/-- C4 witness: one store with 10 kg of a 20 kg requirement — picks record
10 kg, the shortfall records 10 kg, and 10 + 10 = 20 exactly. -/
theorem C4_witness :
    |(((sourceRequirements zeroDist 0 0 [⟨"S1", "Store One", 0, 0, [("Cement", 10)]⟩]
          ([] ++ (⟨"Cement", 20, 1⟩ : Requirement) :: [])).1.filter
          (fun p => p.material = Requirement.material ⟨"Cement", 20, 1⟩)).map
            Pick.weight_kg).sum +
        (((sourceRequirements zeroDist 0 0 [⟨"S1", "Store One", 0, 0, [("Cement", 10)]⟩]
          ([] ++ (⟨"Cement", 20, 1⟩ : Requirement) :: [])).2.filter
          (fun e => e.material = Requirement.material ⟨"Cement", 20, 1⟩)).map
            Shortfall.shortfall_kg).sum -
        Requirement.qty ⟨"Cement", 20, 1⟩ * Requirement.unit_weight ⟨"Cement", 20, 1⟩|
      ≤ (((((sourceRequirements zeroDist 0 0 [⟨"S1", "Store One", 0, 0, [("Cement", 10)]⟩]
          ([] ++ (⟨"Cement", 20, 1⟩ : Requirement) :: [])).1.filter
          (fun p => p.material = Requirement.material ⟨"Cement", 20, 1⟩)).length : ℚ)) + 1) / 200 :=
  C4_conservation zeroDist 0 0 [⟨"S1", "Store One", 0, 0, [("Cement", 10)]⟩]
    [] [] ⟨"Cement", 20, 1⟩ (by norm_num) (by norm_num) (by simp)

/-! ## Claim C7 — absent material yields a shortfall, not an exception -/

/-- `round(0, n)` is 0. -/
theorem pyRound_zero (n : ℕ) : pyRound 0 n = 0 := by
  simp [pyRound, roundHalfEven]

theorem argminFirst_isSome {α : Type} (f : α → ℚ) {l : List α} (h : l ≠ []) :
    (argminFirst f l).isSome = true := by
  cases l with
  | nil => simp at h
  | cons x xs => simp [argminFirst]

/-- With at least one depot, the store-to-depot grouping never fails. -/
theorem groupByDepot_isSome (dist : DistFn) {depots : List Depot} (h : depots ≠ [])
    (storeAggs : List StoreAgg) :
    (groupByDepot dist depots storeAggs).isSome = true := by
  rw [groupByDepot]
  have key : ∀ (l : List StoreAgg) (acc : List (String × (Depot × List StoreAgg))),
      (l.foldlM (fun acc s =>
        (argminFirst (fun d => dist d.lat d.lon s.lat s.lon) depots).map (fun nd =>
          match dictLookup nd.id acc with
          | none => dictInsert acc nd.id (nd, [s])
          | some pair => dictInsert acc nd.id (pair.1, pair.2 ++ [s]))) acc).isSome
        = true := by
    intro l
    induction l with
    | nil => intro acc; simp
    | cons s rest ih =>
      intro acc
      rw [List.foldlM_cons]
      cases ha : argminFirst (fun d => dist d.lat d.lon s.lat s.lon) depots with
      | none =>
        have := argminFirst_isSome (fun d => dist d.lat d.lon s.lat s.lon) h
        rw [ha] at this
        simp at this
      | some nd => exact ih _
  exact key storeAggs []

/-- For a requirement no store can serve, `sourceOne` draws nothing and
records a full shortfall. -/
theorem sourceOne_absent (dist : DistFn) (dest_lat dest_lon : ℚ) (stores : List Store)
    (req : Requirement)
    (habs : ∀ s ∈ stores, invQty s req.material = 0)
    (hneed : 1/1000 < req.qty * req.unit_weight) :
    sourceOne dist dest_lat dest_lon stores req =
      ([], [⟨req.material, pyRound (req.qty * req.unit_weight) 2, 0,
        pyRound (req.qty * req.unit_weight) 2⟩]) := by
  rw [sourceOne]
  have hcand : stores.filterMap (fun s =>
      let availUnits := invQty s req.material
      if 0 < availUnits then
        some (dist dest_lat dest_lon s.lat s.lon, s, availUnits,
          availUnits * req.unit_weight)
      else none) = [] := by
    rw [List.filterMap_eq_nil_iff]
    intro s hs
    simp [habs s hs]
  rw [hcand]
  simp only [stableSortBy, List.foldl_nil, drawLoop]
  rw [if_pos hneed]
  simp [pyRound_zero]

/-- C7 (amended): a requirement whose material is carried by no store and
whose needed weight exceeds the 1e-3 kg epsilon raises nothing and yields a
shortfall entry with `available_kg = 0` and `shortfall_kg` equal to the
recorded `needed_kg` (a 100 % shortfall); given a non-empty depot list (an
unrelated precondition other requirements may need), a plan is returned. -/
theorem C7_absent_material (dist : DistFn) (dest_lat dest_lon : ℚ) (dest_name : String)
    (depots : List Depot) (stores : List Store) (reqs : List Requirement)
    (req : Requirement)
    (hreq : req ∈ reqs)
    (habs : ∀ s ∈ stores, invQty s req.material = 0)
    (hneed : 1/1000 < req.qty * req.unit_weight)
    (hdep : depots ≠ []) :
    (plan_supply dist dest_lat dest_lon dest_name depots stores reqs).isSome = true ∧
    (⟨req.material, pyRound (req.qty * req.unit_weight) 2, 0,
        pyRound (req.qty * req.unit_weight) 2⟩ : Shortfall) ∈
      ((plan_supply dist dest_lat dest_lon dest_name depots stores reqs).getD
        emptyPlan).shortfalls := by
  have hgb := groupByDepot_isSome dist hdep
    ((aggregateByStore (sourceRequirements dist dest_lat dest_lon stores reqs).1).map
      Prod.snd)
  rw [plan_supply]
  cases hg : groupByDepot dist depots
      ((aggregateByStore (sourceRequirements dist dest_lat dest_lon stores reqs).1).map
        Prod.snd) with
  | none => rw [hg] at hgb; simp at hgb
  | some byDepot =>
    simp only [hg]
    constructor
    · rfl
    · show _ ∈ (sourceRequirements dist dest_lat dest_lon stores reqs).2
      rw [sourceRequirements]
      simp only [List.mem_flatten, List.mem_map]
      refine ⟨(sourceOne dist dest_lat dest_lon stores req).2,
        ⟨sourceOne dist dest_lat dest_lon stores req, ⟨req, hreq, rfl⟩, rfl⟩, ?_⟩
      rw [sourceOne_absent dist dest_lat dest_lon stores req habs hneed]
      simp

/-- C7 witness: a single requirement for a material no store carries, one
depot, no stores at all. -/
theorem C7_witness :
    (plan_supply zeroDist 0 0 "Site" [⟨"D1", "Depot One", 0, 0, []⟩] []
        [⟨"Cement", 5, 2⟩]).isSome = true ∧
    (⟨"Cement", pyRound ((5:ℚ) * 2) 2, 0, pyRound ((5:ℚ) * 2) 2⟩ : Shortfall) ∈
      ((plan_supply zeroDist 0 0 "Site" [⟨"D1", "Depot One", 0, 0, []⟩] []
        [⟨"Cement", 5, 2⟩]).getD emptyPlan).shortfalls :=
  C7_absent_material zeroDist 0 0 "Site" [⟨"D1", "Depot One", 0, 0, []⟩] []
    [⟨"Cement", 5, 2⟩] ⟨"Cement", 5, 2⟩ (by simp) (by simp) (by norm_num) (by simp)

/-- C7 (counterexample): with a positive needed weight of 1/2000 kg (below
the 1e-3 epsilon) for a material no store carries, `plan_supply` returns a
plan with an empty shortfall list — no shortfall entry is recorded although
the required weight is positive. -/
theorem C7_counterexample :
    plan_supply zeroDist 0 0 "Site" [⟨"D1", "Depot One", 0, 0, []⟩] []
        [⟨"Cement", 1/2000, 1⟩] =
      some ⟨⟨"Site", 0, 0⟩, [⟨"Cement", 1/2000, 1⟩], [], [], [],
        ⟨0, 0, 0, 0, 0, 0, 0⟩⟩ ∧
    (0 : ℚ) < 1/2000 * 1 := by
  constructor
  · norm_num [plan_supply, sourceRequirements, sourceOne, stableSortBy, drawLoop,
      aggregateByStore, groupByDepot, pyRound, roundHalfEven]
  · norm_num

/-! ## Claim C10 — synthetic truck for a truckless depot -/

/-- With a single truck, the round-robin assignment always picks that truck,
and the assigned loads are exactly the (rounded) loads of the non-empty
Clarke-Wright routes. -/
theorem assignLoop_single (dist : DistFn) (dest_lat dest_lon : ℚ) (dest_name : String)
    (depot : Depot) (storeLookup : List (String × StoreAgg)) (t : DTruck) :
    ∀ (routes : List CWRoute) (idx : ℕ),
      (∀ a ∈ assignLoop dist dest_lat dest_lon dest_name depot storeLookup [t] idx routes,
        a.truck_id = t.id ∧ a.capacity_kg = t.cap) ∧
      (assignLoop dist dest_lat dest_lon dest_name depot storeLookup [t] idx routes).map
          Assignment.load_kg =
        (routes.filter (fun r => !r.stops.isEmpty)).map (fun r => pyRound r.load_kg 2) := by
  intro routes
  induction routes with
  | nil =>
    intro idx
    exact ⟨fun a ha => by simp [assignLoop] at ha, by simp [assignLoop]⟩
  | cons r rest ih =>
    intro idx
    constructor
    · intro a ha
      rw [assignLoop] at ha
      by_cases hre : r.stops.isEmpty
      · rw [if_pos hre] at ha
        exact (ih idx).1 a ha
      · rw [if_neg hre] at ha
        rcases List.mem_cons.1 ha with rfl | ha
        · constructor <;> simp [Nat.mod_one]
        · exact (ih (idx + 1)).1 a ha
    · rw [assignLoop]
      by_cases hre : r.stops.isEmpty
      · rw [if_pos hre]
        rw [(ih idx).2]
        have : (r :: rest).filter (fun r => !r.stops.isEmpty) =
            rest.filter (fun r => !r.stops.isEmpty) := by
          simp [List.filter_cons, hre]
        rw [this]
      · rw [if_neg hre]
        simp only [List.map_cons]
        have : (r :: rest).filter (fun r => !r.stops.isEmpty) =
            r :: rest.filter (fun r => !r.stops.isEmpty) := by
          simp [List.filter_cons, hre]
        rw [this, List.map_cons]
        rw [(ih (idx + 1)).2]

/-- C10: a depot with assigned stores but no trucks receives exactly one
synthetic truck `<depot_id>-T1` of capacity 16000 kg; that capacity is the
Clarke-Wright ceiling, and every resulting assignment carries the synthetic
truck id and `capacity_kg = 16000`. -/
theorem C10_synthetic_truck (dist : DistFn) (dest_lat dest_lon : ℚ) (dest_name : String)
    (depot : Depot) (stores_assigned : List StoreAgg)
    (h : depot.trucks = []) :
    (∀ a ∈ (buildDepotPlan dist dest_lat dest_lon dest_name depot
        stores_assigned).assignments,
      a.truck_id = depot.id ++ "-T1" ∧ a.capacity_kg = 16000) ∧
    (buildDepotPlan dist dest_lat dest_lon dest_name depot stores_assigned).assignments.map
        Assignment.load_kg =
      ((clarke_wright dist depot.lat depot.lon (mkCwStops stores_assigned) 16000).filter
        (fun r => !r.stops.isEmpty)).map (fun r => pyRound r.load_kg 2) := by
  rw [buildDepotPlan, h]
  simp only [List.isEmpty_nil, if_true]
  rw [assembleDepot]
  simp only
  have hcast : ((maxCapOf [⟨depot.id ++ "-T1", 16000⟩] : ℤ) : ℚ) = 16000 := by
    norm_num [maxCapOf]
  rw [hcast]
  constructor
  · intro a ha
    exact (assignLoop_single dist dest_lat dest_lon dest_name depot
      (stores_assigned.foldl (fun m s => dictInsert m s.id s) [])
      ⟨depot.id ++ "-T1", 16000⟩
      (clarke_wright dist depot.lat depot.lon (mkCwStops stores_assigned) 16000) 0).1 a ha
  · exact (assignLoop_single dist dest_lat dest_lon dest_name depot
      (stores_assigned.foldl (fun m s => dictInsert m s.id s) [])
      ⟨depot.id ++ "-T1", 16000⟩
      (clarke_wright dist depot.lat depot.lon (mkCwStops stores_assigned) 16000) 0).2

/-- C10 witness: one truckless depot with one assigned store. -/
theorem C10_witness :
    (buildDepotPlan zeroDist 5 5 "Site" ⟨"D1", "Depot One", 0, 0, []⟩
        [⟨"S1", "Store One", 0, 1, [⟨"Cement", 5, 10⟩], 10⟩]).assignments.map
        Assignment.load_kg =
      ((clarke_wright zeroDist 0 0
          (mkCwStops [⟨"S1", "Store One", 0, 1, [⟨"Cement", 5, 10⟩], 10⟩]) 16000).filter
        (fun r => !r.stops.isEmpty)).map (fun r => pyRound r.load_kg 2) :=
  (C10_synthetic_truck zeroDist 5 5 "Site" ⟨"D1", "Depot One", 0, 0, []⟩
    [⟨"S1", "Store One", 0, 1, [⟨"Cement", 5, 10⟩], 10⟩] rfl).2

end BuildSense
